import Mathlib

/-!
Shallow embedding of the facility-booking workflow of the
Resident-Facility-Management-System backend (`facilityController.ts`):
`getFacilityBookings`, `createBooking`, `approveBooking`, `cancelBooking`.

Times of day are minutes since midnight as `Nat`: the source compares
zero-padded `HH:MM` strings lexicographically (TypeScript `<`/`>` and the
PostgREST `time` comparisons), which agrees with numeric comparison of the
encoded minutes.  Booking dates are day numbers as `Nat`; the source only
compares them for equality, except in `cancelBooking`'s past check where the
date and start time are combined into one chronological instant, modelled
here by `combinedDateTime`.  The booking ledger (`facility_bookings` table)
is a `List Booking`; the facility registry (`facilities` table) is a
`List Facility`.  Database ids are unique in the source (primary keys), so
`.single()` row lookups are modelled with `List.find?`.
-/

namespace FacilityBooking

inductive Role
  | admin
  | resident
deriving DecidableEq, Repr

structure User where
  id : String
  role : Role
deriving DecidableEq, Repr

/-- `facilities` row, the fields the booking workflow reads. -/
structure Facility where
  id : String
  requires_approval : Bool
  operating_hours_start : Nat
  operating_hours_end : Nat
  is_active : Bool
deriving DecidableEq, Repr

inductive BookingStatus
  | pending
  | approved
  | rejected
  | cancelled
deriving DecidableEq, Repr

/-- `facility_bookings` row. -/
structure Booking where
  id : Nat
  facility_id : String
  user_id : String
  booking_date : Nat
  start_time : Nat
  end_time : Nat
  purpose : Option String := none
  notes : Option String := none
  admin_notes : Option String := none
  status : BookingStatus
  approved_by : Option String := none
  approved_at : Option Nat := none
deriving DecidableEq, Repr

/-- Error outcomes of the booking operations, named after the spec's taxonomy. -/
inductive BookingError
  | notFound
  | invalidTimeRange
  | conflict
  | forbidden
  | alreadyCancelled
  | pastBooking
deriving DecidableEq, Repr

/-- HTTP status code each error is reported with in the controller. -/
def BookingError.httpStatus : BookingError → Nat
  | .notFound => 404
  | .invalidTimeRange => 400
  | .conflict => 409
  | .forbidden => 403
  | .alreadyCancelled => 400
  | .pastBooking => 400

/-- Body of `POST /facilities/:id/bookings` (`CreateBookingRequest`). -/
structure CreateBookingRequest where
  facility_id : String
  booking_date : Nat
  start_time : Nat
  end_time : Nat
  purpose : Option String := none
  notes : Option String := none
deriving DecidableEq, Repr

/-- Body of `PUT /bookings/:id/approve` (`ApproveBookingRequest`): the
`approveBookingSchema` restricts `status` to `approved` or `rejected`. -/
inductive Decision
  | approved
  | rejected
deriving DecidableEq, Repr

def Decision.toStatus : Decision → BookingStatus
  | .approved => .approved
  | .rejected => .rejected

/-- The per-row condition of the conflict query's `.or(...)` filter in
`createBooking`, over a stored interval `[a,b)` against the requested
interval `[s1,e1)`:
`and(start_time.lte.s1,end_time.gt.s1)`, or
`and(start_time.lt.e1,end_time.gte.e1)`, or
`and(start_time.gte.s1,end_time.lte.e1)`. -/
def conflictCond (a b s1 e1 : Nat) : Bool :=
  (a ≤ s1 && b > s1) || (a < e1 && b ≥ e1) || (a ≥ s1 && b ≤ e1)

/-- The conflict query of `createBooking`: bookings of the same facility and
date whose status is in `{approved, pending}` and whose interval satisfies
the three-disjunct filter. -/
def conflictQuery (ledger : List Booking) (fid : String) (date : Nat)
    (s1 e1 : Nat) : List Booking :=
  ledger.filter fun bk =>
    bk.facility_id == fid && bk.booking_date == date
      && (bk.status == .approved || bk.status == .pending)
      && conflictCond bk.start_time bk.end_time s1 e1

/-- `createBooking` controller.  `pathId` is the `:id` path parameter of the
route `POST /facilities/:id/bookings`; the controller destructures only
`req.body`, so the parameter is never read.  `now` is the creation instant
(`new Date().toISOString()`), `newId` the id the store assigns to the new
row.  Returns the ledger after the call together with the outcome; every
failure path leaves the ledger unchanged. -/
def createBooking (facs : List Facility) (ledger : List Booking) (actor : User)
    (pathId : String) (req : CreateBookingRequest) (now : Nat) (newId : Nat) :
    List Booking × Except BookingError Booking :=
  match facs.find? (fun f => f.id == req.facility_id && f.is_active) with
  | none => (ledger, .error .notFound)
  | some facility =>
    if req.start_time < facility.operating_hours_start
        || req.end_time > facility.operating_hours_end then
      (ledger, .error .invalidTimeRange)
    else if (conflictQuery ledger req.facility_id req.booking_date
        req.start_time req.end_time).length > 0 then
      (ledger, .error .conflict)
    else
      let initialStatus : BookingStatus :=
        if facility.requires_approval then .pending else .approved
      let booking : Booking :=
        { id := newId
          facility_id := req.facility_id
          user_id := actor.id
          booking_date := req.booking_date
          start_time := req.start_time
          end_time := req.end_time
          purpose := req.purpose
          notes := req.notes
          admin_notes := none
          status := initialStatus
          approved_by := if initialStatus == .approved then some actor.id else none
          approved_at := if initialStatus == .approved then some now else none }
      (ledger ++ [booking], .ok booking)

/-- The `updateData` payload of `approveBooking` applied to a row:
decision status, approver, approval timestamp, and `admin_notes` when the
field was present in the body (a field absent from the body is dropped from
the JSON update payload, leaving the column untouched). -/
def applyApproval (actor : User) (decision : Decision)
    (adminNotes : Option String) (now : Nat) (bk : Booking) : Booking :=
  { bk with
    status := decision.toStatus
    admin_notes := match adminNotes with
      | some n => some n
      | none => bk.admin_notes
    approved_by := some actor.id
    approved_at := some now }

/-- `approveBooking` controller.  Admin check, then a conditional update of
the row with the given id whose status is `pending`
(`.eq('id', id).eq('status', 'pending')`); a vacuous update reports the
not-found outcome. -/
def approveBooking (ledger : List Booking) (actor : User) (bookingId : Nat)
    (decision : Decision) (adminNotes : Option String) (now : Nat) :
    List Booking × Except BookingError Booking :=
  if actor.role ≠ .admin then
    (ledger, .error .forbidden)
  else
    match ledger.find? (fun bk => bk.id == bookingId && bk.status == .pending) with
    | none => (ledger, .error .notFound)
    | some bk =>
      (ledger.map fun b =>
        if b.id == bookingId && b.status == .pending then
          applyApproval actor decision adminNotes now b
        else b,
       .ok (applyApproval actor decision adminNotes now bk))

/-- Chronological instant of a booking's date combined with a time of day,
as in `new Date(`${booking_date}T${start_time}`)` in `cancelBooking`. -/
def combinedDateTime (date time : Nat) : Nat :=
  date * 1440 + time

/-- `cancelBooking` controller: fetch by id, permission check (owner or
admin), already-cancelled check, past check, then update `status` to
`cancelled`. -/
def cancelBooking (ledger : List Booking) (actor : User) (bookingId : Nat)
    (now : Nat) : List Booking × Except BookingError Booking :=
  match ledger.find? (fun bk => bk.id == bookingId) with
  | none => (ledger, .error .notFound)
  | some existingBooking =>
    if actor.role ≠ .admin && existingBooking.user_id ≠ actor.id then
      (ledger, .error .forbidden)
    else if existingBooking.status == .cancelled then
      (ledger, .error .alreadyCancelled)
    else if combinedDateTime existingBooking.booking_date
        existingBooking.start_time < now then
      (ledger, .error .pastBooking)
    else
      (ledger.map fun b =>
        if b.id == bookingId then { b with status := BookingStatus.cancelled } else b,
       .ok { existingBooking with status := BookingStatus.cancelled })

/-- Stable insertion into a sorted list; `sortBookings` below models the
`.order('booking_date', ascending).order('start_time', ascending)` clause of
`getFacilityBookings`. -/
def insertSorted (le : Booking → Booking → Bool) (b : Booking) :
    List Booking → List Booking
  | [] => [b]
  | c :: cs => if le b c then b :: c :: cs else c :: insertSorted le b cs

/-- Stable sort of the result rows. -/
def sortBookings (le : Booking → Booking → Bool) : List Booking → List Booking
  | [] => []
  | b :: bs => insertSorted le b (sortBookings le bs)

/-- `getFacilityBookings` controller: filter by facility, restrict
non-admins to approved-or-own rows (`.or('status.eq.approved,user_id.eq.…')`),
apply the optional status and date filters, order by booking date then start
time ascending, and paginate with `.range(offset, offset + limit - 1)` where
`offset = (page - 1) * limit`. -/
def getFacilityBookings (ledger : List Booking) (actor : User)
    (facilityId : String) (statusFilter : Option BookingStatus)
    (dateFilter : Option Nat) (page limit : Nat) : List Booking :=
  let q := ledger.filter fun bk => bk.facility_id == facilityId
  let q := if actor.role ≠ .admin then
      q.filter fun bk => bk.status == .approved || bk.user_id == actor.id
    else q
  let q : List Booking := match statusFilter with
    | some s => q.filter fun bk => bk.status == s
    | none => q
  let q : List Booking := match dateFilter with
    | some d => q.filter fun bk => bk.booking_date == d
    | none => q
  let q := sortBookings (fun b1 b2 =>
    b1.booking_date < b2.booking_date
      || (b1.booking_date == b2.booking_date && b1.start_time ≤ b2.start_time)) q
  (q.drop ((page - 1) * limit)).take limit

/-- The half-open interval overlap relation of the spec:
`[s1,e1)` and `[s2,e2)` overlap iff `s1 < e2` and `s2 < e1`. -/
def Overlaps (b1 b2 : Booking) : Prop :=
  b1.start_time < b2.end_time ∧ b2.start_time < b1.end_time

/-- Same facility and same date. -/
def SameSlot (b1 b2 : Booking) : Prop :=
  b1.facility_id = b2.facility_id ∧ b1.booking_date = b2.booking_date

/-- A booking that the conflict detector considers, per its status. -/
def ActiveStatus (b : Booking) : Prop :=
  b.status = .pending ∨ b.status = .approved

/-- The no-double-booking invariant: no two pending-or-approved bookings of
the same facility and date have overlapping half-open intervals. -/
def NoDoubleBooking (ledger : List Booking) : Prop :=
  ledger.Pairwise fun b1 b2 =>
    ActiveStatus b1 → ActiveStatus b2 → SameSlot b1 b2 → ¬ Overlaps b1 b2

/-- One application of a booking operation to the ledger; failing calls leave
the ledger unchanged by construction of the operations. -/
inductive Step (facs : List Facility) : List Booking → List Booking → Prop
  | create (ledger : List Booking) (actor : User) (pathId : String)
      (req : CreateBookingRequest) (now newId : Nat) :
      Step facs ledger (createBooking facs ledger actor pathId req now newId).1
  | approve (ledger : List Booking) (actor : User) (bookingId : Nat)
      (decision : Decision) (adminNotes : Option String) (now : Nat) :
      Step facs ledger (approveBooking ledger actor bookingId decision adminNotes now).1
  | cancel (ledger : List Booking) (actor : User) (bookingId : Nat) (now : Nat) :
      Step facs ledger (cancelBooking ledger actor bookingId now).1

/-- Reachability under any sequence of booking operations. -/
def Reachable (facs : List Facility) : List Booking → List Booking → Prop :=
  Relation.ReflTransGen (Step facs)

/-! ## Helper lemmas -/

/-- The half-open overlap formula implies the query's three-disjunct filter,
with no validity assumption on either interval. -/
theorem conflictCond_of_overlap {a b s1 e1 : Nat} (h1 : s1 < b) (h2 : a < e1) :
    conflictCond a b s1 e1 = true := by
  simp only [conflictCond, Bool.or_eq_true, Bool.and_eq_true, decide_eq_true_eq,
    gt_iff_lt, ge_iff_le]
  omega

/-- For valid intervals the three-disjunct filter is exactly half-open overlap. -/
theorem conflictCond_iff_overlap {a b s1 e1 : Nat} (hn : s1 < e1) (hs : a < b) :
    conflictCond a b s1 e1 = true ↔ (s1 < b ∧ a < e1) := by
  simp only [conflictCond, Bool.or_eq_true, Bool.and_eq_true, decide_eq_true_eq,
    gt_iff_lt, ge_iff_le]
  omega

/-- Characterisation of a successful `createBooking` call: the facility was
found active, the hours check passed, the conflict query was empty, and the
ledger grows by exactly the returned booking, whose fields are as inserted. -/
theorem createBooking_ok {facs : List Facility} {ledger : List Booking}
    {actor : User} {pathId : String} {req : CreateBookingRequest} {now newId : Nat}
    {ledger' : List Booking} {bk : Booking}
    (h : createBooking facs ledger actor pathId req now newId = (ledger', Except.ok bk)) :
    ∃ facility, facs.find? (fun f => f.id == req.facility_id && f.is_active) = some facility ∧
      ¬ (req.start_time < facility.operating_hours_start
          || req.end_time > facility.operating_hours_end) = true ∧
      conflictQuery ledger req.facility_id req.booking_date req.start_time req.end_time = [] ∧
      ledger' = ledger ++ [bk] ∧
      bk = { id := newId
             facility_id := req.facility_id
             user_id := actor.id
             booking_date := req.booking_date
             start_time := req.start_time
             end_time := req.end_time
             purpose := req.purpose
             notes := req.notes
             admin_notes := none
             status := if facility.requires_approval then .pending else .approved
             approved_by :=
               if (if facility.requires_approval then BookingStatus.pending
                   else BookingStatus.approved) == .approved then some actor.id else none
             approved_at :=
               if (if facility.requires_approval then BookingStatus.pending
                   else BookingStatus.approved) == .approved then some now else none } := by
  unfold createBooking at h
  split at h
  next => simp at h
  next facility hfind =>
    refine ⟨facility, hfind, ?_⟩
    split at h
    next => simp at h
    next hhours =>
      split at h
      next => simp at h
      next hconf =>
        simp only [Prod.mk.injEq, Except.ok.injEq] at h
        refine ⟨hhours, ?_, ?_, ?_⟩
        · exact List.length_eq_zero.mp (by omega)
        · rw [← h.2, ← h.1]
        · exact h.2.symm

/-- Converse direction: if the facility is found active, the hours check
passes and the conflict query is empty, `createBooking` inserts a booking. -/
theorem createBooking_succeeds {facs : List Facility} {ledger : List Booking}
    {actor : User} {pathId : String} {req : CreateBookingRequest} {now newId : Nat}
    {facility : Facility}
    (hfind : facs.find? (fun f => f.id == req.facility_id && f.is_active) = some facility)
    (hhours : (req.start_time < facility.operating_hours_start
        || req.end_time > facility.operating_hours_end) = false)
    (hconf : conflictQuery ledger req.facility_id req.booking_date
        req.start_time req.end_time = []) :
    ∃ bk, createBooking facs ledger actor pathId req now newId
      = (ledger ++ [bk], Except.ok bk) := by
  unfold createBooking
  simp only [hfind, hhours, hconf, List.length_nil, gt_iff_lt, lt_self_iff_false,
    if_false, Bool.false_eq_true]
  exact ⟨_, rfl⟩

/-- The conflict query distributes over ledger concatenation. -/
theorem conflictQuery_append (l1 l2 : List Booking) (fid : String)
    (date s1 e1 : Nat) :
    conflictQuery (l1 ++ l2) fid date s1 e1
      = conflictQuery l1 fid date s1 e1 ++ conflictQuery l2 fid date s1 e1 := by
  unfold conflictQuery
  exact List.filter_append _ _

/-- The ledger after `createBooking` is unchanged or grows by the booking. -/
theorem createBooking_fst (facs : List Facility) (ledger : List Booking)
    (actor : User) (pathId : String) (req : CreateBookingRequest)
    (now newId : Nat) :
    (createBooking facs ledger actor pathId req now newId).1 = ledger
    ∨ ∃ bk, createBooking facs ledger actor pathId req now newId
        = (ledger ++ [bk], Except.ok bk) := by
  unfold createBooking
  split
  · exact Or.inl rfl
  · split
    · exact Or.inl rfl
    · split
      · exact Or.inl rfl
      · exact Or.inr ⟨_, rfl⟩

/-- The ledger after `approveBooking` is unchanged or is the in-place
conditional update of the pending row with the given id. -/
theorem approveBooking_fst (ledger : List Booking) (actor : User)
    (bookingId : Nat) (decision : Decision) (adminNotes : Option String)
    (now : Nat) :
    (approveBooking ledger actor bookingId decision adminNotes now).1 = ledger
    ∨ (approveBooking ledger actor bookingId decision adminNotes now).1
        = ledger.map fun b =>
            if b.id == bookingId && b.status == .pending then
              applyApproval actor decision adminNotes now b
            else b := by
  unfold approveBooking
  split
  · exact Or.inl rfl
  · split
    · exact Or.inl rfl
    · exact Or.inr rfl

/-- The ledger after `cancelBooking` is unchanged or is the in-place status
update of the row with the given id. -/
theorem cancelBooking_fst (ledger : List Booking) (actor : User)
    (bookingId : Nat) (now : Nat) :
    (cancelBooking ledger actor bookingId now).1 = ledger
    ∨ (cancelBooking ledger actor bookingId now).1
        = ledger.map fun b =>
            if b.id == bookingId then { b with status := BookingStatus.cancelled }
            else b := by
  unfold cancelBooking
  split
  · exact Or.inl rfl
  · split
    · exact Or.inl rfl
    · split
      · exact Or.inl rfl
      · split
        · exact Or.inl rfl
        · exact Or.inr rfl

/-- `NoDoubleBooking` is preserved by any in-place update that keeps each
row's facility, date and times and never turns an inactive status active. -/
theorem noDoubleBooking_map {l : List Booking} {f : Booking → Booking}
    (hfac : ∀ b, (f b).facility_id = b.facility_id)
    (hdate : ∀ b, (f b).booking_date = b.booking_date)
    (hstart : ∀ b, (f b).start_time = b.start_time)
    (hend : ∀ b, (f b).end_time = b.end_time)
    (hact : ∀ b, ActiveStatus (f b) → ActiveStatus b)
    (h : NoDoubleBooking l) : NoDoubleBooking (l.map f) := by
  unfold NoDoubleBooking at h ⊢
  rw [List.pairwise_map]
  refine h.imp ?_
  intro a b hab ha hb hslot hov
  refine hab (hact a ha) (hact b hb) ⟨?_, ?_⟩ ⟨?_, ?_⟩
  · have := hslot.1; rwa [hfac, hfac] at this
  · have := hslot.2; rwa [hdate, hdate] at this
  · have := hov.1; rwa [hstart, hend] at this
  · have := hov.2; rwa [hstart, hend] at this

/-- One booking operation preserves the no-double-booking invariant. -/
theorem step_preserves_noDoubleBooking {facs : List Facility}
    {l l' : List Booking} (hs : Step facs l l') (h : NoDoubleBooking l) :
    NoDoubleBooking l' := by
  cases hs with
  | create actor pathId req now newId =>
    rcases createBooking_fst facs l actor pathId req now newId with
      heq | ⟨bk, heq⟩
    · rw [heq]; exact h
    · obtain ⟨facility, hfind, hhours, hconf, hl, hb⟩ := createBooking_ok heq
      rw [heq]
      unfold NoDoubleBooking at h ⊢
      rw [List.pairwise_append]
      refine ⟨h, List.pairwise_singleton _ _, ?_⟩
      intro a ha b hbmem hacta hactb hslot hov
      rw [List.mem_singleton] at hbmem
      subst hbmem
      have hpred := (List.filter_eq_nil_iff.mp hconf) a ha
      apply hpred
      have hfid : a.facility_id = req.facility_id := by
        have := hslot.1; rw [hb] at this; exact this
      have hdt : a.booking_date = req.booking_date := by
        have := hslot.2; rw [hb] at this; exact this
      have hovs : a.start_time < req.end_time := by
        have := hov.1; rw [hb] at this; exact this
      have hove : req.start_time < a.end_time := by
        have := hov.2; rw [hb] at this; exact this
      have hstat : (a.status == BookingStatus.approved
          || a.status == BookingStatus.pending) = true := by
        rcases hacta with hp | hp <;> rw [hp] <;> rfl
      simp only [hfid, hdt, hstat, beq_self_eq_true, Bool.true_and, Bool.and_true]
      exact conflictCond_of_overlap hove hovs
  | approve actor bookingId decision adminNotes now =>
    rcases approveBooking_fst l actor bookingId decision adminNotes now with
      heq | heq
    · rw [heq]; exact h
    · rw [heq]
      refine noDoubleBooking_map ?_ ?_ ?_ ?_ ?_ h <;> intro b
      · split <;> simp [applyApproval]
      · split <;> simp [applyApproval]
      · split <;> simp [applyApproval]
      · split <;> simp [applyApproval]
      · intro hactive
        split at hactive
        · next hcond =>
          simp only [Bool.and_eq_true, beq_iff_eq] at hcond
          exact Or.inl hcond.2
        · exact hactive
  | cancel actor bookingId now =>
    rcases cancelBooking_fst l actor bookingId now with heq | heq
    · rw [heq]; exact h
    · rw [heq]
      refine noDoubleBooking_map ?_ ?_ ?_ ?_ ?_ h <;> intro b
      · split <;> rfl
      · split <;> rfl
      · split <;> rfl
      · split <;> rfl
      · intro hactive
        split at hactive
        · rcases hactive with hp | hp <;> simp at hp
        · exact hactive

/-! ## Concrete scenario data used by witnesses and counterexamples -/

/-- Active facility, auto-approved, open 08:00 to 20:00. -/
def facPool : Facility :=
  { id := "pool", requires_approval := false, operating_hours_start := 480,
    operating_hours_end := 1200, is_active := true }

/-- Active facility that requires approval, open 08:00 to 20:00. -/
def facGym : Facility :=
  { id := "gym", requires_approval := true, operating_hours_start := 480,
    operating_hours_end := 1200, is_active := true }

def alice : User := { id := "alice", role := .resident }

def bob : User := { id := "bob", role := .resident }

def carol : User := { id := "carol", role := .admin }

/-- Booking request for the pool on day 10, 10:00 to 12:00. -/
def reqPool1 : CreateBookingRequest :=
  { facility_id := "pool", booking_date := 10, start_time := 600, end_time := 720 }

/-- Booking request for the pool on day 10, 12:00 to 13:00 (touching `reqPool1`). -/
def reqPool2 : CreateBookingRequest :=
  { facility_id := "pool", booking_date := 10, start_time := 720, end_time := 780 }

/-- A rejected booking of alice for the gym on day 10, 10:00 to 12:00. -/
def rejectedBooking : Booking :=
  { id := 1, facility_id := "gym", user_id := "alice", booking_date := 10,
    start_time := 600, end_time := 720, status := .rejected }

/-! ## Claims -/

/-- C2: for valid intervals (`s1 < e1`, `s2 < e2`) the three-disjunct filter
of `createBooking`'s conflict query — over each stored interval `[a,b)` —
equals the half-open overlap formula `s1 < b AND a < e1`; in particular two
bookings that merely touch (`B1.end ≤ B2.start`) on the same facility and
date may both be created: a second request that would have succeeded on the
original ledger still succeeds after the first booking is inserted. -/
theorem conflict_filter_is_halfopen_overlap :
    (∀ a b s1 e1 : Nat, s1 < e1 → a < b →
        (conflictCond a b s1 e1 = true ↔ (s1 < b ∧ a < e1)))
    ∧ (∀ (facs : List Facility) (ledger : List Booking) (u1 u2 : User)
        (p1 p2 : String) (req1 req2 : CreateBookingRequest)
        (n1 n2 i1 i2 : Nat) (ledger1 : List Booking) (b1 b2 : Booking),
        createBooking facs ledger u1 p1 req1 n1 i1 = (ledger1, Except.ok b1) →
        (createBooking facs ledger u2 p2 req2 n2 i2).2 = Except.ok b2 →
        req1.facility_id = req2.facility_id →
        req1.booking_date = req2.booking_date →
        req1.start_time < req1.end_time →
        req2.start_time < req2.end_time →
        req1.end_time ≤ req2.start_time →
        ∃ b2', (createBooking facs ledger1 u2 p2 req2 n2 i2).2 = Except.ok b2') := by
  constructor
  · exact fun a b s1 e1 hn hs => conflictCond_iff_overlap hn hs
  · intro facs ledger u1 u2 p1 p2 req1 req2 n1 n2 i1 i2 ledger1 b1 b2
      h1 h2 hfid hdate hv1 hv2 htouch
    obtain ⟨f1, hfind1, hhours1, hconf1, hl1, hb1⟩ := createBooking_ok h1
    have h2' : createBooking facs ledger u2 p2 req2 n2 i2
        = ((createBooking facs ledger u2 p2 req2 n2 i2).1, Except.ok b2) := by
      rw [← h2]
    obtain ⟨f2, hfind2, hhours2, hconf2, -, -⟩ := createBooking_ok h2'
    have hcc : conflictCond req1.start_time req1.end_time
        req2.start_time req2.end_time = false := by
      cases hcase : conflictCond req1.start_time req1.end_time
          req2.start_time req2.end_time with
      | false => rfl
      | true =>
        have := (conflictCond_iff_overlap hv2 hv1).mp hcase
        omega
    have hpred : (b1.facility_id == req2.facility_id
        && b1.booking_date == req2.booking_date
        && (b1.status == BookingStatus.approved || b1.status == BookingStatus.pending)
        && conflictCond b1.start_time b1.end_time req2.start_time req2.end_time)
        = false := by
      have hs : b1.start_time = req1.start_time := by rw [hb1]
      have he : b1.end_time = req1.end_time := by rw [hb1]
      rw [hs, he, hcc, Bool.and_false]
    have hq1 : conflictQuery (ledger ++ [b1]) req2.facility_id req2.booking_date
        req2.start_time req2.end_time = [] := by
      rw [conflictQuery_append, hconf2]
      simp [conflictQuery, hpred]
    have hhours2' : (req2.start_time < f2.operating_hours_start
        || req2.end_time > f2.operating_hours_end) = false := by
      simpa using hhours2
    obtain ⟨bk, hbk⟩ := @createBooking_succeeds facs (ledger ++ [b1]) u2 p2 req2
      n2 i2 f2 hfind2 hhours2' hq1
    subst hl1
    exact ⟨bk, by rw [hbk]⟩

/-- C1: starting from any ledger satisfying the no-double-booking invariant,
every ledger reachable under any sequence of createBooking, approveBooking
and cancelBooking operations still satisfies it: for a given facility and
date, no two bookings whose status is pending or approved have overlapping
half-open intervals. -/
theorem reachable_no_double_booking (facs : List Facility)
    (l0 l : List Booking) (hreach : Reachable facs l0 l)
    (h0 : NoDoubleBooking l0) : NoDoubleBooking l := by
  induction hreach with
  | refl => exact h0
  | tail _ hstep ih => exact step_preserves_noDoubleBooking hstep ih

/-- Witness for C1: one concrete creation step from the empty ledger. -/
theorem reachable_no_double_booking_witness :
    NoDoubleBooking (createBooking [facPool] [] alice "pool" reqPool1 0 1).1 :=
  reachable_no_double_booking [facPool] []
    (createBooking [facPool] [] alice "pool" reqPool1 0 1).1
    (Relation.ReflTransGen.single (Step.create [] alice "pool" reqPool1 0 1))
    List.Pairwise.nil

/-- Witness for C2 at concrete values: intervals [10:00,12:00) and
[11:00,13:00) overlap, hence satisfy the query filter. -/
theorem conflict_filter_is_halfopen_overlap_witness :
    conflictCond 600 720 660 780 = true :=
  (conflict_filter_is_halfopen_overlap.1 600 720 660 780 (by decide)
    (by decide)).mpr (by decide)

/-- Across one operation every ledger row keeps its identity; a cancelled
row stays cancelled, a rejected row stays rejected or becomes cancelled, and
no row whose status left pending ever shows pending again. -/
theorem step_status_evolution {facs : List Facility} {l l' : List Booking}
    (hs : Step facs l l') :
    ∀ b ∈ l, ∃ b' ∈ l', b'.id = b.id
      ∧ (b.status = .cancelled → b'.status = .cancelled)
      ∧ (b.status = .rejected → b'.status = .rejected ∨ b'.status = .cancelled)
      ∧ (b'.status = .pending → b.status = .pending) := by
  intro b hb
  cases hs with
  | create actor pathId req now newId =>
    rcases createBooking_fst facs l actor pathId req now newId with heq | ⟨bk, heq⟩
    · exact ⟨b, by rw [heq]; exact hb, rfl, fun h => h, fun h => Or.inl h, fun h => h⟩
    · refine ⟨b, ?_, rfl, fun h => h, fun h => Or.inl h, fun h => h⟩
      rw [heq]
      exact List.mem_append_left _ hb
  | approve actor bookingId decision adminNotes now =>
    rcases approveBooking_fst l actor bookingId decision adminNotes now with heq | heq
    · exact ⟨b, by rw [heq]; exact hb, rfl, fun h => h, fun h => Or.inl h, fun h => h⟩
    · rw [heq]
      by_cases hcond : (b.id == bookingId && b.status == BookingStatus.pending) = true
      · have hbst : b.status = .pending := by
          simp only [Bool.and_eq_true, beq_iff_eq] at hcond
          exact hcond.2
        refine ⟨applyApproval actor decision adminNotes now b, ?_, ?_, ?_, ?_, ?_⟩
        · exact List.mem_map.mpr ⟨b, hb, if_pos hcond⟩
        · rfl
        · intro h; rw [hbst] at h; exact absurd h (by decide)
        · intro h; rw [hbst] at h; exact absurd h (by decide)
        · exact fun _ => hbst
      · refine ⟨b, ?_, rfl, fun h => h, fun h => Or.inl h, fun h => h⟩
        exact List.mem_map.mpr ⟨b, hb, if_neg hcond⟩
  | cancel actor bookingId now =>
    rcases cancelBooking_fst l actor bookingId now with heq | heq
    · exact ⟨b, by rw [heq]; exact hb, rfl, fun h => h, fun h => Or.inl h, fun h => h⟩
    · rw [heq]
      by_cases hcond : (b.id == bookingId) = true
      · refine ⟨{ b with status := BookingStatus.cancelled }, ?_, rfl,
          fun _ => rfl, fun _ => Or.inr rfl, fun h => BookingStatus.noConfusion h⟩
        exact List.mem_map.mpr ⟨b, hb, if_pos hcond⟩
      · refine ⟨b, ?_, rfl, fun h => h, fun h => Or.inl h, fun h => h⟩
        exact List.mem_map.mpr ⟨b, hb, if_neg hcond⟩

/-- C5 (amended): across any sequence of operations, a cancelled booking
stays cancelled, a rejected booking stays rejected or becomes cancelled, and
no booking ever returns to pending. -/
theorem reachable_status_evolution (facs : List Facility)
    (l0 l : List Booking) (hreach : Reachable facs l0 l) :
    ∀ b ∈ l0, ∃ b' ∈ l, b'.id = b.id
      ∧ (b.status = .cancelled → b'.status = .cancelled)
      ∧ (b.status = .rejected → b'.status = .rejected ∨ b'.status = .cancelled)
      ∧ (b'.status = .pending → b.status = .pending) := by
  induction hreach with
  | refl => exact fun b hb => ⟨b, hb, rfl, fun h => h, fun h => Or.inl h, fun h => h⟩
  | tail _ hstep ih =>
    intro b hb
    obtain ⟨b1, hb1, hid1, hc1, hr1, hp1⟩ := ih b hb
    obtain ⟨b2, hb2, hid2, hc2, hr2, hp2⟩ := step_status_evolution hstep b1 hb1
    refine ⟨b2, hb2, hid2.trans hid1, fun h => hc2 (hc1 h), ?_, fun h => hp1 (hp2 h)⟩
    intro h
    rcases hr1 h with h1 | h1
    · exact hr2 h1
    · exact Or.inr (hc2 h1)

/-- Witness for the amended C5: one concrete cancellation step applied to a
ledger holding a rejected booking. -/
theorem reachable_status_evolution_witness :
    ∃ b' ∈ (cancelBooking [rejectedBooking] alice 1 0).1,
      b'.id = rejectedBooking.id
      ∧ (rejectedBooking.status = .cancelled → b'.status = .cancelled)
      ∧ (rejectedBooking.status = .rejected →
          b'.status = .rejected ∨ b'.status = .cancelled)
      ∧ (b'.status = .pending → rejectedBooking.status = .pending) :=
  reachable_status_evolution [facGym] [rejectedBooking]
    (cancelBooking [rejectedBooking] alice 1 0).1
    (Relation.ReflTransGen.single (Step.cancel [rejectedBooking] alice 1 0))
    rejectedBooking (List.mem_singleton.mpr rfl)

/-- Counterexample to C5 as stated: a future rejected booking is changed by
`cancelBooking` — its owner cancels it and the status becomes cancelled, so
`rejected` is not a terminal state of the step relation. -/
theorem rejected_not_terminal_counterexample :
    rejectedBooking.status = BookingStatus.rejected
    ∧ cancelBooking [rejectedBooking] alice 1 0
        = ([{ rejectedBooking with status := BookingStatus.cancelled }],
           Except.ok { rejectedBooking with status := BookingStatus.cancelled })
    ∧ BookingStatus.cancelled ≠ BookingStatus.rejected := by
  refine ⟨rfl, ?_, by decide⟩
  rfl

/-- Characterisation of a successful `approveBooking` call. -/
theorem approveBooking_ok {ledger : List Booking} {actor : User}
    {bookingId : Nat} {decision : Decision} {adminNotes : Option String}
    {now : Nat} {ledger' : List Booking} {bk' : Booking}
    (h : approveBooking ledger actor bookingId decision adminNotes now
      = (ledger', Except.ok bk')) :
    actor.role = .admin
    ∧ ∃ bk, ledger.find? (fun b => b.id == bookingId && b.status == .pending)
          = some bk
        ∧ bk' = applyApproval actor decision adminNotes now bk
        ∧ ledger' = ledger.map fun b =>
            if b.id == bookingId && b.status == .pending then
              applyApproval actor decision adminNotes now b
            else b := by
  unfold approveBooking at h
  split at h
  · simp at h
  next hadm =>
    split at h
    · simp at h
    next bk hfind =>
      simp only [Prod.mk.injEq, Except.ok.injEq] at h
      exact ⟨not_not.mp hadm, bk, hfind, h.2.symm, h.1.symm⟩

/-- Characterisation of a successful `cancelBooking` call. -/
theorem cancelBooking_ok {ledger : List Booking} {actor : User}
    {bookingId now : Nat} {ledger' : List Booking} {bk' : Booking}
    (h : cancelBooking ledger actor bookingId now = (ledger', Except.ok bk')) :
    ∃ bk, ledger.find? (fun b => b.id == bookingId) = some bk
      ∧ bk' = { bk with status := BookingStatus.cancelled }
      ∧ ledger' = ledger.map fun b =>
          if b.id == bookingId then { b with status := BookingStatus.cancelled }
          else b := by
  unfold cancelBooking at h
  split at h
  · simp at h
  next bk hfind =>
    split at h
    · simp at h
    · split at h
      · simp at h
      · split at h
        · simp at h
        · simp only [Prod.mk.injEq, Except.ok.injEq] at h
          exact ⟨bk, hfind, h.2.symm, h.1.symm⟩

/-- C3 (amended): against an existing active facility, `createBooking` fails
with InvalidTimeRange exactly when the request leaves the operating hours —
`start < operating_hours_start` or `end > operating_hours_end` — for every
ledger, so the check is decided before any conflict with existing bookings;
`start >= end` on its own is NOT rejected (no such validation exists). -/
theorem invalid_time_range_iff_outside_hours (facs : List Facility)
    (ledger : List Booking) (actor : User) (pathId : String)
    (req : CreateBookingRequest) (now newId : Nat) (facility : Facility)
    (hfind : facs.find? (fun f => f.id == req.facility_id && f.is_active)
      = some facility) :
    (createBooking facs ledger actor pathId req now newId).2
        = Except.error BookingError.invalidTimeRange
      ↔ (req.start_time < facility.operating_hours_start
          ∨ req.end_time > facility.operating_hours_end) := by
  unfold createBooking
  simp only [hfind]
  by_cases hhours : (req.start_time < facility.operating_hours_start
      || req.end_time > facility.operating_hours_end) = true
  · rw [if_pos hhours]
    refine iff_of_true rfl ?_
    simpa using hhours
  · rw [if_neg hhours]
    refine iff_of_false ?_ ?_
    · by_cases hconf : (conflictQuery ledger req.facility_id req.booking_date
          req.start_time req.end_time).length > 0
      · rw [if_pos hconf]
        intro herr
        simp at herr
      · rw [if_neg hconf]
        intro herr
        simp at herr
    · intro hout
      apply hhours
      simpa using hout

/-- Request on the pool with start 06:40, before opening time. -/
def reqEarly : CreateBookingRequest :=
  { facility_id := "pool", booking_date := 10, start_time := 400, end_time := 600 }

/-- Witness for the amended C3: a request starting before opening hours is
rejected with InvalidTimeRange. -/
theorem invalid_time_range_iff_outside_hours_witness :
    (createBooking [facPool] [] alice "pool" reqEarly 0 1).2
      = Except.error BookingError.invalidTimeRange :=
  (invalid_time_range_iff_outside_hours [facPool] [] alice "pool" reqEarly 0 1
    facPool (by decide)).mpr (by decide)

/-- Request on the pool whose start time is after its end time, both within
operating hours. -/
def reqBackwards : CreateBookingRequest :=
  { facility_id := "pool", booking_date := 10, start_time := 720, end_time := 600 }

/-- The booking the code inserts for `reqBackwards`. -/
def bookingBackwards : Booking :=
  { id := 1, facility_id := "pool", user_id := "alice", booking_date := 10,
    start_time := 720, end_time := 600, status := .approved,
    approved_by := some "alice", approved_at := some 0 }

/-- Counterexample to C3 as stated: a request with `start >= end` whose
times lie inside operating hours is not rejected with InvalidTimeRange — it
succeeds and inserts a booking with `start_time > end_time`. -/
theorem start_after_end_not_rejected_counterexample :
    reqBackwards.start_time ≥ reqBackwards.end_time
    ∧ createBooking [facPool] [] alice "pool" reqBackwards 0 1
        = ([bookingBackwards], Except.ok bookingBackwards) := by
  exact ⟨by decide, rfl⟩

/-- C4: an administrator's approveBooking call transitions the booking (to
the decision, with approver = actor and approval timestamp = now) only when
a pending booking with the id exists; otherwise — the id is absent or its
status is not pending — the call reports the same NotFound outcome with the
ledger unchanged, and in particular a second approval attempt on the updated
ledger fails with NotFound. -/
theorem approve_only_pending (ledger : List Booking) (actor : User)
    (bookingId : Nat) (decision : Decision) (adminNotes : Option String)
    (now : Nat) (hadmin : actor.role = .admin) :
    (∀ ledger' bk',
        approveBooking ledger actor bookingId decision adminNotes now
          = (ledger', Except.ok bk') →
        ∃ bk ∈ ledger, bk.id = bookingId ∧ bk.status = .pending
          ∧ bk' = applyApproval actor decision adminNotes now bk
          ∧ bk'.status = decision.toStatus
          ∧ bk'.approved_by = some actor.id ∧ bk'.approved_at = some now)
    ∧ ((¬ ∃ bk ∈ ledger, bk.id = bookingId ∧ bk.status = .pending) →
        approveBooking ledger actor bookingId decision adminNotes now
          = (ledger, Except.error BookingError.notFound))
    ∧ (∀ ledger' bk',
        approveBooking ledger actor bookingId decision adminNotes now
          = (ledger', Except.ok bk') →
        ∀ (actor2 : User) (d2 : Decision) (n2 : Option String) (t2 : Nat),
          actor2.role = .admin →
          (approveBooking ledger' actor2 bookingId d2 n2 t2).2
            = Except.error BookingError.notFound) := by
  have hadm' : ¬ actor.role ≠ Role.admin := not_not.mpr hadmin
  refine ⟨?_, ?_, ?_⟩
  · intro ledger' bk' h
    obtain ⟨-, bk, hfind, hbk', -⟩ := approveBooking_ok h
    have hmem := List.mem_of_find?_eq_some hfind
    have hpred := List.find?_some hfind
    simp only [Bool.and_eq_true, beq_iff_eq] at hpred
    exact ⟨bk, hmem, hpred.1, hpred.2, hbk', by rw [hbk']; rfl,
      by rw [hbk']; rfl, by rw [hbk']; rfl⟩
  · intro hnone
    have hfindnone : ledger.find?
        (fun b => b.id == bookingId && b.status == .pending) = none := by
      rw [List.find?_eq_none]
      intro a ha hpred
      simp only [Bool.and_eq_true, beq_iff_eq] at hpred
      exact hnone ⟨a, ha, hpred.1, hpred.2⟩
    unfold approveBooking
    rw [if_neg hadm', hfindnone]
  · intro ledger' bk' h actor2 d2 n2 t2 hadmin2
    obtain ⟨-, bk, hfind, -, hledger'⟩ := approveBooking_ok h
    have hfindnone : ledger'.find?
        (fun b => b.id == bookingId && b.status == .pending) = none := by
      rw [hledger', List.find?_eq_none]
      intro a ha
      rw [List.mem_map] at ha
      obtain ⟨x, hx, rfl⟩ := ha
      by_cases hc : (x.id == bookingId && x.status == BookingStatus.pending) = true
      · rw [if_pos hc]
        intro hcc
        simp only [Bool.and_eq_true, beq_iff_eq] at hcc
        have hts : decision.toStatus = BookingStatus.pending := hcc.2
        cases decision <;> exact absurd hts (by decide)
      · rw [if_neg hc]
        intro hcc
        exact hc hcc
    unfold approveBooking
    rw [if_neg (not_not.mpr hadmin2), hfindnone]

/-- Witness for C4: approving against an empty ledger reports NotFound. -/
theorem approve_only_pending_witness :
    approveBooking [] carol 1 Decision.approved none 5
      = ([], Except.error BookingError.notFound) :=
  (approve_only_pending [] carol 1 Decision.approved none 5 rfl).2.1 (by simp)

/-- C6: a successful `createBooking` yields status pending when the
facility requires approval — with approver and approval timestamp left
unpopulated — and status approved with approver = creating actor and
approval timestamp = now when it does not. -/
theorem initial_status_follows_requires_approval (facs : List Facility)
    (ledger : List Booking) (actor : User) (pathId : String)
    (req : CreateBookingRequest) (now newId : Nat) (ledger' : List Booking)
    (bk : Booking) (facility : Facility)
    (hfind : facs.find? (fun f => f.id == req.facility_id && f.is_active)
      = some facility)
    (hok : createBooking facs ledger actor pathId req now newId
      = (ledger', Except.ok bk)) :
    (facility.requires_approval = true →
        bk.status = .pending ∧ bk.approved_by = none ∧ bk.approved_at = none)
    ∧ (facility.requires_approval = false →
        bk.status = .approved ∧ bk.approved_by = some actor.id
          ∧ bk.approved_at = some now) := by
  obtain ⟨f2, hfind2, -, -, -, hb⟩ := createBooking_ok hok
  rw [hfind] at hfind2
  injection hfind2 with hf2
  subst hf2
  constructor
  · intro hra
    rw [hb]
    simp [hra]
  · intro hra
    rw [hb]
    simp [hra]

/-- Pending-state request and resulting booking on the gym (approval
required). -/
def reqGym : CreateBookingRequest :=
  { facility_id := "gym", booking_date := 10, start_time := 600, end_time := 720 }

/-- The booking inserted for `reqGym` by alice. -/
def bkGym : Booking :=
  { id := 1, facility_id := "gym", user_id := "alice", booking_date := 10,
    start_time := 600, end_time := 720, status := .pending }

/-- Witness for C6 on the approval-requiring gym. -/
theorem initial_status_follows_requires_approval_witness :
    (facGym.requires_approval = true →
        bkGym.status = .pending ∧ bkGym.approved_by = none
          ∧ bkGym.approved_at = none)
    ∧ (facGym.requires_approval = false →
        bkGym.status = .approved ∧ bkGym.approved_by = some alice.id
          ∧ bkGym.approved_at = some 0) :=
  initial_status_follows_requires_approval [facGym] [] alice "gym" reqGym 0 1
    [bkGym] bkGym facGym (by decide) rfl

/-- The `getFacilityBookings` pipeline without the non-admin visibility
restriction: what an administrator is served. -/
def listFacilityBookingsUnrestricted (ledger : List Booking)
    (facilityId : String) (statusFilter : Option BookingStatus)
    (dateFilter : Option Nat) (page limit : Nat) : List Booking :=
  let q := ledger.filter fun bk => bk.facility_id == facilityId
  let q : List Booking := match statusFilter with
    | some s => q.filter fun bk => bk.status == s
    | none => q
  let q : List Booking := match dateFilter with
    | some d => q.filter fun bk => bk.booking_date == d
    | none => q
  let q := sortBookings (fun b1 b2 =>
    b1.booking_date < b2.booking_date
      || (b1.booking_date == b2.booking_date && b1.start_time ≤ b2.start_time)) q
  (q.drop ((page - 1) * limit)).take limit

/-- Membership is invariant under `insertSorted`. -/
theorem mem_insertSorted (le : Booking → Booking → Bool) (b x : Booking)
    (l : List Booking) :
    x ∈ insertSorted le b l ↔ x = b ∨ x ∈ l := by
  induction l with
  | nil => simp [insertSorted]
  | cons c cs ih =>
    simp only [insertSorted]
    split
    · simp only [List.mem_cons]
    · simp only [List.mem_cons, ih]
      tauto

/-- Membership is invariant under `sortBookings`. -/
theorem mem_sortBookings (le : Booking → Booking → Bool) (x : Booking)
    (l : List Booking) :
    x ∈ sortBookings le l ↔ x ∈ l := by
  induction l with
  | nil => simp [sortBookings]
  | cons b bs ih =>
    simp only [sortBookings, mem_insertSorted, List.mem_cons, ih]

/-- C7: a non-administrator listing a facility's bookings only ever receives
bookings that are approved or their own — never another user's pending,
rejected or cancelled booking — while an administrator's result set carries
no visibility restriction. -/
theorem facility_listing_visibility (ledger : List Booking) (actor : User)
    (facilityId : String) (statusFilter : Option BookingStatus)
    (dateFilter : Option Nat) (page limit : Nat) :
    (actor.role ≠ .admin →
        ∀ bk ∈ getFacilityBookings ledger actor facilityId statusFilter
            dateFilter page limit,
          bk.status = .approved ∨ bk.user_id = actor.id)
    ∧ (actor.role = .admin →
        getFacilityBookings ledger actor facilityId statusFilter dateFilter
            page limit
          = listFacilityBookingsUnrestricted ledger facilityId statusFilter
              dateFilter page limit) := by
  constructor
  · intro hrole bk hmem
    simp only [getFacilityBookings] at hmem
    rw [if_pos hrole] at hmem
    have h1 := List.mem_of_mem_take hmem
    have h2 := List.mem_of_mem_drop h1
    rw [mem_sortBookings] at h2
    cases statusFilter <;> cases dateFilter <;>
      simp only [List.mem_filter, Bool.or_eq_true, beq_iff_eq] at h2 <;>
      tauto
  · intro hrole
    simp only [getFacilityBookings, listFacilityBookingsUnrestricted]
    rw [if_neg (not_not.mpr hrole)]

/-- An approved booking of alice on the gym. -/
def approvedBk : Booking :=
  { id := 2, facility_id := "gym", user_id := "alice", booking_date := 10,
    start_time := 780, end_time := 840, status := .approved }

/-- Witness for C7: bob (a non-admin) receives alice's approved booking in
the gym listing, and the theorem certifies it is approved or bob's own. -/
theorem facility_listing_visibility_witness :
    approvedBk.status = .approved ∨ approvedBk.user_id = bob.id :=
  (facility_listing_visibility [bkGym, approvedBk] bob "gym" none none 1 10).1
    (by decide) approvedBk (by decide)

/-- C8: `cancelBooking` applies its checks in order — NotFound when the id
is absent; else Forbidden unless the actor is the owner or an admin; else
AlreadyCancelled when the status is cancelled; else PastBooking when the
booking's combined date and start time lies strictly before now; otherwise
a future pending-or-approved booking cancelled by its owner succeeds. -/
theorem cancel_checks_in_order (ledger : List Booking) (actor : User)
    (bookingId : Nat) (now : Nat) :
    (ledger.find? (fun b => b.id == bookingId) = none →
        cancelBooking ledger actor bookingId now
          = (ledger, Except.error BookingError.notFound))
    ∧ (∀ bk, ledger.find? (fun b => b.id == bookingId) = some bk →
        actor.role ≠ .admin → bk.user_id ≠ actor.id →
        cancelBooking ledger actor bookingId now
          = (ledger, Except.error BookingError.forbidden))
    ∧ (∀ bk, ledger.find? (fun b => b.id == bookingId) = some bk →
        (actor.role = .admin ∨ bk.user_id = actor.id) →
        bk.status = .cancelled →
        cancelBooking ledger actor bookingId now
          = (ledger, Except.error BookingError.alreadyCancelled))
    ∧ (∀ bk, ledger.find? (fun b => b.id == bookingId) = some bk →
        (actor.role = .admin ∨ bk.user_id = actor.id) →
        bk.status ≠ .cancelled →
        combinedDateTime bk.booking_date bk.start_time < now →
        cancelBooking ledger actor bookingId now
          = (ledger, Except.error BookingError.pastBooking))
    ∧ (∀ bk, ledger.find? (fun b => b.id == bookingId) = some bk →
        bk.user_id = actor.id →
        (bk.status = .pending ∨ bk.status = .approved) →
        ¬ combinedDateTime bk.booking_date bk.start_time < now →
        ∃ bk', (cancelBooking ledger actor bookingId now).2 = Except.ok bk'
          ∧ bk'.status = .cancelled) := by
  refine ⟨?_, ?_, ?_, ?_, ?_⟩
  · intro hfind
    unfold cancelBooking
    simp only [hfind]
  · intro bk hfind hrole huser
    have hcond : (decide (actor.role ≠ Role.admin)
        && decide (bk.user_id ≠ actor.id)) = true := by
      simp only [Bool.and_eq_true, decide_eq_true_eq]
      exact ⟨hrole, huser⟩
    unfold cancelBooking
    simp only [hfind]
    rw [if_pos hcond]
  · intro bk hfind hperm hcanc
    have hcond : ¬ (decide (actor.role ≠ Role.admin)
        && decide (bk.user_id ≠ actor.id)) = true := by
      rcases hperm with h | h <;> simp [h]
    have hcanc' : (bk.status == BookingStatus.cancelled) = true := by
      simp [hcanc]
    unfold cancelBooking
    simp only [hfind]
    rw [if_neg hcond, if_pos hcanc']
  · intro bk hfind hperm hcanc hpast
    have hcond : ¬ (decide (actor.role ≠ Role.admin)
        && decide (bk.user_id ≠ actor.id)) = true := by
      rcases hperm with h | h <;> simp [h]
    have hcanc' : ¬ (bk.status == BookingStatus.cancelled) = true := by
      simp [hcanc]
    unfold cancelBooking
    simp only [hfind]
    rw [if_neg hcond, if_neg hcanc', if_pos hpast]
  · intro bk hfind huser hstat hpast
    have hcond : ¬ (decide (actor.role ≠ Role.admin)
        && decide (bk.user_id ≠ actor.id)) = true := by
      simp [huser]
    have hcanc' : ¬ (bk.status == BookingStatus.cancelled) = true := by
      rcases hstat with h | h <;> simp [h]
    unfold cancelBooking
    simp only [hfind]
    rw [if_neg hcond, if_neg hcanc', if_neg hpast]
    exact ⟨_, rfl, rfl⟩

/-- An approved past booking of alice on the gym (day 0). -/
def pastBk : Booking :=
  { id := 3, facility_id := "gym", user_id := "alice", booking_date := 0,
    start_time := 600, end_time := 720, status := .approved }

/-- Witness for C8: cancelling a past booking fails with PastBooking. -/
theorem cancel_checks_in_order_witness :
    cancelBooking [pastBk] alice 3 100000
      = ([pastBk], Except.error BookingError.pastBooking) :=
  (cancel_checks_in_order [pastBk] alice 3 100000).2.2.2.1 pastBk (by decide)
    (Or.inr (by decide)) (by decide) (by decide)

/-- C9: a successful cancellation rewrites exactly the target row, changing
only its status to cancelled — facility, owner, date, times, purpose, notes,
admin notes, approver and approval timestamp are untouched — and every other
row of the ledger is carried over unchanged. -/
theorem cancel_frame (ledger : List Booking) (actor : User) (bookingId : Nat)
    (now : Nat) (ledger' : List Booking) (bk' : Booking)
    (h : cancelBooking ledger actor bookingId now = (ledger', Except.ok bk')) :
    ∃ bk, ledger.find? (fun b => b.id == bookingId) = some bk
      ∧ bk' = { bk with status := BookingStatus.cancelled }
      ∧ bk'.status = .cancelled
      ∧ bk'.facility_id = bk.facility_id ∧ bk'.user_id = bk.user_id
      ∧ bk'.booking_date = bk.booking_date ∧ bk'.start_time = bk.start_time
      ∧ bk'.end_time = bk.end_time ∧ bk'.purpose = bk.purpose
      ∧ bk'.notes = bk.notes ∧ bk'.admin_notes = bk.admin_notes
      ∧ bk'.approved_by = bk.approved_by ∧ bk'.approved_at = bk.approved_at
      ∧ ledger' = ledger.map (fun b =>
          if b.id == bookingId then { b with status := BookingStatus.cancelled }
          else b)
      ∧ ∀ b ∈ ledger, b.id ≠ bookingId → b ∈ ledger' := by
  obtain ⟨bk, hfind, hbk', hledger'⟩ := cancelBooking_ok h
  subst hbk'
  refine ⟨bk, hfind, rfl, rfl, rfl, rfl, rfl, rfl, rfl, rfl, rfl, rfl, rfl,
    rfl, hledger', ?_⟩
  intro b hb hne
  rw [hledger']
  exact List.mem_map.mpr ⟨b, hb, if_neg (by simp [hne])⟩

/-- Witness for C9: alice cancels her future approved booking. -/
theorem cancel_frame_witness :
    ∃ bk, ([approvedBk] : List Booking).find? (fun b => b.id == 2) = some bk
      ∧ { approvedBk with status := BookingStatus.cancelled }
          = { bk with status := BookingStatus.cancelled }
      ∧ ({ approvedBk with status := BookingStatus.cancelled } : Booking).status
          = .cancelled
      ∧ ({ approvedBk with status := BookingStatus.cancelled } : Booking).facility_id
          = bk.facility_id
      ∧ ({ approvedBk with status := BookingStatus.cancelled } : Booking).user_id
          = bk.user_id
      ∧ ({ approvedBk with status := BookingStatus.cancelled } : Booking).booking_date
          = bk.booking_date
      ∧ ({ approvedBk with status := BookingStatus.cancelled } : Booking).start_time
          = bk.start_time
      ∧ ({ approvedBk with status := BookingStatus.cancelled } : Booking).end_time
          = bk.end_time
      ∧ ({ approvedBk with status := BookingStatus.cancelled } : Booking).purpose
          = bk.purpose
      ∧ ({ approvedBk with status := BookingStatus.cancelled } : Booking).notes
          = bk.notes
      ∧ ({ approvedBk with status := BookingStatus.cancelled } : Booking).admin_notes
          = bk.admin_notes
      ∧ ({ approvedBk with status := BookingStatus.cancelled } : Booking).approved_by
          = bk.approved_by
      ∧ ({ approvedBk with status := BookingStatus.cancelled } : Booking).approved_at
          = bk.approved_at
      ∧ [{ approvedBk with status := BookingStatus.cancelled }]
          = ([approvedBk] : List Booking).map (fun b =>
              if b.id == 2 then { b with status := BookingStatus.cancelled }
              else b)
      ∧ ∀ b ∈ ([approvedBk] : List Booking), b.id ≠ 2 →
          b ∈ [{ approvedBk with status := BookingStatus.cancelled }] :=
  cancel_frame [approvedBk] alice 2 0
    [{ approvedBk with status := BookingStatus.cancelled }]
    { approvedBk with status := BookingStatus.cancelled } rfl

/-- C10: the `:id` path parameter of `POST /facilities/:id/bookings` is
never read — two requests that agree on the body but differ in the path id
produce identical ledgers and outcomes, the facility being determined solely
by the body's `facility_id`. -/
theorem path_id_ignored (facs : List Facility) (ledger : List Booking)
    (actor : User) (pathId1 pathId2 : String) (req : CreateBookingRequest)
    (now newId : Nat) :
    createBooking facs ledger actor pathId1 req now newId
      = createBooking facs ledger actor pathId2 req now newId := rfl

end FacilityBooking
